import Mathlib

/-!
Shallow embedding of the bam-utility-plugins validation library.

Source files embedded:
- `src/unnamed/part_000` (condition predicates: isEmpty and friends,
  isTextIncludes, isTextExcludes)
- `src/src/validate.ts` (validator function set and the Validator engine)

Modelling conventions:
- JavaScript runtime values are the inductive `JSValue`.  Numbers are
  modelled as integers plus a NaN marker (no claim exercises non-integral
  numbers).  Objects are association lists of own enumerable properties,
  tagged with their constructor; object *identity* is modelled through a
  small heap (`World`) only where aliasing is observable (the module-level
  validator table and each engine instance's stored errors object).
- `JSON.stringify` is modelled by `jsonStringify` (string escaping inside
  quoted strings is elided; no claim depends on the content of a quoted
  string, only on whether a serialization equals the empty-array or
  empty-object literal).  The composite `JSON.parse(JSON.stringify x)` used
  by `getErrors` is modelled at the tree level by `jsonCloneVal`, i.e. the
  text layer, which is mutually inverse on the JSON-safe fragment, is
  elided.
- The external collaborators (blob to data-URL, URL to image element, file
  size parsing, the regular-expression engine used through patterns that
  are not literals of the source) are parameters in `Env`; their alls are
  counted in `Effects` together with the warnings emitted through
  `handleWarningLog`.
- The literal regular expressions of the source (email, password, the
  whitespace test) are modelled semantically by executable character-level
  functions.
-/

/-- JavaScript numbers as used by this library: NaN or an integer. -/
inductive JSNum where
  | nan
  | int (i : Int)
deriving DecidableEq, Repr

/-- The constructor of a plain JavaScript object: `Object` or some other
class (used by the `value.constructor === Object` test in
`isObjectEmpty`). -/
inductive JSCtor where
  | object
  | other (name : String)
deriving DecidableEq, Repr

/-- JavaScript runtime values.  `obj` carries its constructor tag and the
ordered list of own enumerable properties; `blob` carries the two fields
the source reads (`size`, `type`). -/
inductive JSValue where
  | undef
  | jsNull
  | num (n : JSNum)
  | bool (b : Bool)
  | str (s : String)
  | arr (xs : List JSValue)
  | obj (ctor : JSCtor) (fields : List (String × JSValue))
  | blob (size : Nat) (type : String)

/-- JavaScript truthiness. -/
def jsTruthy : JSValue → Bool
  | .undef => false
  | .jsNull => false
  | .num .nan => false
  | .num (.int i) => decide (i ≠ 0)
  | .bool b => b
  | .str s => decide (s ≠ "")
  | .arr _ => true
  | .obj _ _ => true
  | .blob _ _ => true

/-- Decimal digits of a natural number, with a structural fuel argument
(the fuel `n + 1` always suffices since `10 ^ n > n`). -/
def natDigsF : Nat → Nat → List Char
  | 0, _ => []
  | fuel + 1, n =>
    if n < 10 then [Nat.digitChar n]
    else natDigsF fuel (n / 10) ++ [Nat.digitChar (n % 10)]

/-- Decimal digits of a natural number. -/
def natDigs (n : Nat) : List Char := natDigsF (n + 1) n

/-- Decimal rendering of a natural number. -/
def natStr (n : Nat) : String := String.mk (natDigs n)

/-- Decimal rendering of an integer (the model of `Number` to string). -/
def intStr (i : Int) : String :=
  if i < 0 then "-" ++ natStr i.natAbs else natStr i.natAbs

/-- `Array.prototype.join` with the comma separator. -/
def joinComma : List String → String
  | [] => ""
  | [s] => s
  | s :: rest => s ++ "," ++ joinComma rest

mutual

/-- Model of `String(value)` (ToString coercion).  Arrays join their
elements with commas, nested `undefined`/`null` elements render empty. -/
def jsToStr : JSValue → String
  | .undef => "undefined"
  | .jsNull => "null"
  | .num .nan => "NaN"
  | .num (.int i) => intStr i
  | .bool b => if b then "true" else "false"
  | .str s => s
  | .arr xs => joinComma (jsArrStrElems xs)
  | .obj _ _ => "[object Object]"
  | .blob _ _ => "[object Blob]"

/-- Elements of an array under `Array.prototype.toString`. -/
def jsArrStrElems : List JSValue → List String
  | [] => []
  | .undef :: rest => "" :: jsArrStrElems rest
  | .jsNull :: rest => "" :: jsArrStrElems rest
  | v :: rest => jsToStr v :: jsArrStrElems rest

end

/-- JSON string quoting (escaping elided; see the file header). -/
def jsonQuote (s : String) : String := "\"" ++ s ++ "\""

mutual

/-- Model of `JSON.stringify`: `none` is the `undefined` result (the value
is omitted when it is an object property). -/
def jsonStringify : JSValue → Option String
  | .undef => none
  | .jsNull => some "null"
  | .num .nan => some "null"
  | .num (.int i) => some (intStr i)
  | .bool b => some (if b then "true" else "false")
  | .str s => some (jsonQuote s)
  | .arr xs => some ("[" ++ joinComma (jsonArrElems xs) ++ "]")
  | .obj _ fields => some ("\x7b" ++ joinComma (jsonObjElems fields) ++ "\x7d")
  | .blob _ _ => some "\x7b\x7d"

/-- Serialized elements of an array (unserializable elements render as
`null`). -/
def jsonArrElems : List JSValue → List String
  | [] => []
  | v :: rest => ((jsonStringify v).getD "null") :: jsonArrElems rest

/-- Serialized members of an object (unserializable values are omitted). -/
def jsonObjElems : List (String × JSValue) → List String
  | [] => []
  | (k, v) :: rest =>
    match jsonStringify v with
    | none => jsonObjElems rest
    | some s => (jsonQuote k ++ ":" ++ s) :: jsonObjElems rest

end

/-- First own enumerable property with the given key. -/
def lookupField : List (String × JSValue) → String → Option JSValue
  | [], _ => none
  | (k, v) :: rest, n => if k = n then some v else lookupField rest n

/-- Own enumerable properties in `for (const k in v)` order: an object's
fields, an array's indexed elements, a string's indexed characters. -/
def enumProps : JSValue → List (String × JSValue)
  | .obj _ fields => fields
  | .arr xs => xs.enum.map (fun p => (natStr p.1, p.2))
  | .str s => s.data.enum.map (fun p => (natStr p.1, JSValue.str (String.mk [p.2])))
  | _ => []

/-- Property access `v[n]` (absent properties and primitive receivers give
`undefined`). -/
def getProp (v : JSValue) (n : String) : JSValue :=
  ((lookupField (enumProps v) n).getD .undef)

/-- `Object.hasOwnProperty.call (v, n)`. -/
def hasOwn (v : JSValue) (n : String) : Bool :=
  (lookupField (enumProps v) n).isSome

/-- The whitespace class `\s` of a JavaScript regular expression. -/
def isJsSpace (c : Char) : Bool :=
  c == ' ' || c == '\t' || c == '\n' || c == '\r' || c == '\x0b' || c == '\x0c' ||
  c == '\u00A0' || c == '\u1680' || ('\u2000' ≤ c && c ≤ '\u200A') ||
  c == '\u2028' || c == '\u2029' || c == '\u202F' || c == '\u205F' ||
  c == '\u3000' || c == '\uFEFF'

/-! Embedding of `src/unnamed/part_000` (the condition predicates). -/

/-- `isArrayEmpty` of the source:
`Array.isArray(value) && JSON.stringify(value.filter(Boolean)) === '[]'`. -/
def isArrayEmpty : JSValue → Bool
  | .arr xs => decide ("[" ++ joinComma (jsonArrElems (xs.filter jsTruthy)) ++ "]" = "[]")
  | _ => false

/-- `isObjectEmpty` of the source: `typeof value === 'object' && value !==
null && value.constructor === Object && JSON.stringify(value) === '{}'`
(arrays and blobs have constructors `Array`/`Blob` and are excluded). -/
def isObjectEmpty : JSValue → Bool
  | .obj .object fields => decide ("\x7b" ++ joinComma (jsonObjElems fields) ++ "\x7d" = "\x7b\x7d")
  | _ => false

/-- `isBlobEmpty` of the source. -/
def isBlobEmpty : JSValue → Bool
  | .blob size type => decide (size = 0) || decide (type = "")
  | _ => false

/-- `isStringEmpty` of the source: `typeof value === 'string' &&
/^\s*$/.test(value)`. -/
def isStringEmpty : JSValue → Bool
  | .str s => s.data.all isJsSpace
  | _ => false

/-- `isNumberEmpty` of the source: `typeof value === 'number' &&
isNaN(value)`. -/
def isNumberEmpty : JSValue → Bool
  | .num .nan => true
  | _ => false

/-- `isEmpty` of the source: the chain of emptiness checks in source
order (`undefined`, `null`, number, string, array, object, blob). -/
def isEmpty : JSValue → Bool
  | .undef => true
  | .jsNull => true
  | v =>
    isNumberEmpty v || isStringEmpty v || isArrayEmpty v ||
    isObjectEmpty v || isBlobEmpty v

/-- A pattern of `isTextIncludes`/`isTextExcludes`: an already compiled
regular expression (identified by its source) or a plain string compiled
with `new RegExp(String(value))`. -/
inductive Pattern where
  | regex (src : String)
  | plain (s : String)

/-- `isTextIncludes` of the source, parameterized by the external regular
expression engine `test` (source text → subject text → match). -/
def isTextIncludes (test : String → String → Bool) : List Pattern → String → Bool
  | [], _ => false
  | .regex src :: rest, text =>
    if test src text then true else isTextIncludes test rest text
  | .plain s :: rest, text =>
    if test s text then true else isTextIncludes test rest text

/-- `isTextExcludes` of the source: its own scan with the inverse
short-circuit. -/
def isTextExcludes (test : String → String → Bool) : List Pattern → String → Bool
  | [], _ => true
  | .regex src :: rest, text =>
    if test src text then false else isTextExcludes test rest text
  | .plain s :: rest, text =>
    if test s text then false else isTextExcludes test rest text

/-! Embedding of `src/src/validate.ts`: the validator function set. -/

/-- ASCII letter, the regex class `[a-zA-Z]`. -/
def isAsciiLetter (c : Char) : Bool :=
  ('a' ≤ c && c ≤ 'z') || ('A' ≤ c && c ≤ 'Z')

/-- A JavaScript regular-expression line terminator (which `.` does not
match). -/
def isLineTerm (c : Char) : Bool :=
  c == '\n' || c == '\r' || c == '\u2028' || c == '\u2029'

/-- Split a character list at every occurrence of the separator
(`String.prototype.split` semantics: `n` separators give `n+1` pieces). -/
def splitOnCharAux (sep : Char) : List Char → List Char → List (List Char)
  | [], acc => [acc.reverse]
  | c :: rest, acc =>
    if c == sep then acc.reverse :: splitOnCharAux sep rest []
    else splitOnCharAux sep rest (c :: acc)

/-- `String.prototype.split` with a one-character separator. -/
def splitOnChar (sep : Char) (l : List Char) : List (List Char) :=
  splitOnCharAux sep l []

/-- A character allowed inside a dot-atom of the email regex's local part
(the class excluding angle brackets, parentheses, square brackets,
backslash, dot, comma, semicolon, colon, whitespace, at sign, quote). -/
def emailAtomChar (c : Char) : Bool :=
  !(c == '<' || c == '>' || c == '(' || c == ')' || c == '[' || c == ']' ||
    c == '\\' || c == '.' || c == ',' || c == ';' || c == ':' || c == '@' ||
    c == '"' || isJsSpace c)

/-- The dot-atom alternative of the email regex's local part:
one or more atoms separated by single dots, each atom nonempty. -/
def emailLocalAtoms (l : List Char) : Bool :=
  (splitOnChar '.' l).all (fun p => !p.isEmpty && p.all emailAtomChar)

/-- The quoted alternative of the email regex's local part: a quote, one
or more non-line-terminator characters, a quote. -/
def emailLocalQuoted (l : List Char) : Bool :=
  decide (3 ≤ l.length) && (l.head? == some '"') && (l.getLast? == some '"') &&
  ((l.drop 1).dropLast.all (fun c => !isLineTerm c))

/-- The IPv4-literal alternative of the email regex's domain: a bracketed
dotted quad of one-to-three-digit groups. -/
def emailIPv4 (l : List Char) : Bool :=
  (l.head? == some '[') && (l.getLast? == some ']') &&
  (let inner := (l.drop 1).dropLast
   let pieces := splitOnChar '.' inner
   decide (pieces.length = 4) &&
   pieces.all (fun p => decide (1 ≤ p.length) && decide (p.length ≤ 3) && p.all Char.isDigit))

/-- The DNS alternative of the email regex's domain: one or more labels of
letters, digits and hyphens, each followed by a dot, then a top-level
label of at least two letters. -/
def emailDNS (l : List Char) : Bool :=
  let pieces := splitOnChar '.' l
  decide (2 ≤ pieces.length) &&
  pieces.dropLast.all (fun p => !p.isEmpty && p.all (fun c => isAsciiLetter c || c.isDigit || c == '-')) &&
  (match pieces.getLast? with
   | some t => decide (2 ≤ t.length) && t.all isAsciiLetter
   | none => false)

/-- All decompositions of a character list around an at sign. -/
def emailSplitsAux : List Char → List Char → List (List Char × List Char)
  | [], _ => []
  | c :: rest, acc =>
    if c == '@' then (acc.reverse, rest) :: emailSplitsAux rest (c :: acc)
    else emailSplitsAux rest (c :: acc)

/-- Semantic model of the literal email regular expression of
`emailValidator`: the anchored pattern matches iff some decomposition at
an at sign has a valid local part and a valid domain. -/
def emailRegexTest (s : String) : Bool :=
  (emailSplitsAux s.data []).any
    (fun p => (emailLocalAtoms p.1 || emailLocalQuoted p.1) && (emailIPv4 p.2 || emailDNS p.2))

/-- Semantic model of the password regular expression
`^(?=.*\d)(?=.*[a-zA-Z]).{min,max}$` built by `passwordValidator`: a
digit somewhere, a letter somewhere, length within the bounds, and no
line terminators (which `.` cannot match).  The quantifier bounds are
spliced from the resolved `min`/`max`; only number bounds are modelled
(every claim resolves them to numbers). -/
def passwordRegexTest (minV maxV : JSValue) (s : String) : Bool :=
  match minV, maxV with
  | .num (.int a), .num (.int b) =>
    s.data.any Char.isDigit && s.data.any isAsciiLetter &&
    decide (a ≤ (s.data.length : Int)) && decide ((s.data.length : Int) ≤ b) &&
    s.data.all (fun c => !isLineTerm c)
  | _, _ => false

/-- The unit-returning warning collaborator plus the counted external
collaborator calls made by the validators. -/
structure Effects where
  warnings : List String
  b64Calls : Nat
  imgCalls : Nat
  sizeCalls : Nat
deriving DecidableEq, Repr

/-- No effect. -/
def Effects.noEff : Effects := ⟨[], 0, 0, 0⟩

/-- Sequence two effect records. -/
def Effects.app (a b : Effects) : Effects :=
  ⟨a.warnings ++ b.warnings, a.b64Calls + b.b64Calls,
   a.imgCalls + b.imgCalls, a.sizeCalls + b.sizeCalls⟩

/-- One `handleWarningLog` emission. -/
def warnEff (msg : String) : Effects := ⟨[msg], 0, 0, 0⟩

/-- One `blobToBase64` call. -/
def b64Eff : Effects := ⟨[], 1, 0, 0⟩

/-- One `urlToImageElement` call. -/
def imgEff : Effects := ⟨[], 0, 1, 0⟩

/-- One `transformFileSize` call. -/
def sizeEff : Effects := ⟨[], 0, 0, 1⟩

/-- A decoded image element (the two fields the source reads). -/
structure ImgEl where
  naturalWidth : Nat
  naturalHeight : Nat
deriving DecidableEq, Repr

/-- The external collaborators consumed by the validators: blob to
data-URL (given the blob's two fields), data-URL to decoded image, file
size parsing, and the regular-expression engine behind patterns that are
not literals of the source (`new RegExp(...)` inside `isTextIncludes`). -/
structure Env where
  blobToBase64 : Nat → String → String
  urlToImage : String → ImgEl
  transformFileSize : JSValue → JSNum
  regTest : String → String → Bool

/-- A validator's result: `null`, a single message, or many messages. -/
inductive StringResult where
  | nullR
  | strR (s : String)
  | listR (xs : List String)
deriving DecidableEq, Repr

/-- A thrown JavaScript error (the only throw site the engine can reach is
calling `undefined` when a validator name is absent from the table). -/
inductive RTErr where
  | typeError
deriving DecidableEq, Repr

/-- A validator table entry: value and option payload to a (possibly
throwing) result plus effects. -/
abbrev Handler : Type :=
  Env → JSValue → JSValue → Except RTErr StringResult × Effects

/-- The validator name-to-function table (`ValidatorHandlerList`). -/
abbrev Table : Type := List (String × Handler)

/-- `x || 'default'` where the result is used as an error message string. -/
def pickMsg (v : JSValue) (dflt : String) : String :=
  if jsTruthy v then jsToStr v else dflt

/-- Default message of `isEmptyValidator`. -/
def msgEmptyDflt : String := "輸入資料不得為空"

/-- Default message of `emailValidator`. -/
def msgEmailDflt : String := "請輸入正確的電子郵件信箱格式"

/-- Default message of `equalValidator`. -/
def msgEqualDflt : String := "輸入資料不相等"

/-- Default `minWidth` message of `imageValidator`. -/
def msgMinWidthDflt : String := "圖片寬度大小低於限制"

/-- Default `maxWidth` message of `imageValidator`. -/
def msgMaxWidthDflt : String := "圖片寬度大小超出限制"

/-- Default `minHeight` message of `imageValidator`. -/
def msgMinHeightDflt : String := "圖片高度大小低於限制"

/-- Default `maxHeight` message of `imageValidator`. -/
def msgMaxHeightDflt : String := "圖片高度大小超出限制"

/-- Default `size` message of `imageValidator`. -/
def msgSizeDflt : String := "檔案大小超出限制"

/-- Default `type` message of `imageValidator`. -/
def msgTypeDflt : String := "檔案類型錯誤"

/-- Warning for an unparsable `size` option. -/
def warnSizeMsg : String :=
  "utils[function validImage]: The option property size is not valid variable."

/-- Warning for a non-Blob value given to `imageValidator`. -/
def warnNotBlobMsg : String :=
  "utils[function validImage]: The value is not Blob object."

/-- Warning for an all-empty model in `validate`. -/
def warnModelEmptyMsg : String :=
  "utils[function validate]: The form property is all empty."

/-- Warning for an all-empty rule set in `validate`. -/
def warnOptEmptyMsg : String :=
  "utils[function validate]: The options property is all empty."

/-- Warning for a missing rule set in `validateField`. -/
def warnFieldOptMsg : String :=
  "utils[function validateField]: The options type is not a ValidateField."

/-- The `optionDefault` object of `isEmptyValidator` and
`emailValidator`. -/
def messageOnlyDefault : JSValue := .obj .object [("message", .str "")]

/-- `isEmptyValidator` of the source. -/
def isEmptyValidator (value option : JSValue) : StringResult :=
  let opt := if jsTruthy option then option else messageOnlyDefault
  if isEmpty value then .strR (pickMsg (getProp opt "message") msgEmptyDflt)
  else .nullR

/-- `emailValidator` of the source. -/
def emailValidator (value option : JSValue) : StringResult :=
  let opt := if jsTruthy option then option else messageOnlyDefault
  if emailRegexTest (jsToStr value) then .nullR
  else .strR (pickMsg (getProp opt "message") msgEmailDflt)

/-- The `optionDefault` object of `passwordValidator`. -/
def passwordOptionDefault : JSValue :=
  .obj .object [("min", .num (.int 6)), ("max", .num (.int 30)), ("message", .str "")]

/-- `passwordValidator` of the source: `opt.min || 6`, `opt.max || 30`,
the interpolated default message, and the password regular expression. -/
def passwordValidator (value option : JSValue) : StringResult :=
  let opt := if jsTruthy option then option else passwordOptionDefault
  let minV := if jsTruthy (getProp opt "min") then getProp opt "min" else .num (.int 6)
  let maxV := if jsTruthy (getProp opt "max") then getProp opt "max" else .num (.int 30)
  if passwordRegexTest minV maxV (jsToStr value) then .nullR
  else .strR (pickMsg (getProp opt "message")
    ("密碼請輸入" ++ jsToStr minV ++ "~" ++ jsToStr maxV ++ "碼英數混合"))

/-- Strict equality `===`.  Primitives compare by value (`NaN` is unequal
to itself); object operands compare by reference, which the value model
does not track, and are modelled as unequal (no claim exercises them). -/
def jsStrictEq : JSValue → JSValue → Bool
  | .undef, .undef => true
  | .jsNull, .jsNull => true
  | .num (.int a), .num (.int b) => a == b
  | .bool a, .bool b => a == b
  | .str a, .str b => a == b
  | _, _ => false

/-- The `optionDefault` object of `equalValidator`. -/
def equalOptionDefault : JSValue :=
  .obj .object [("equal", .str ""), ("message", .str "")]

/-- `equalValidator` of the source: `opt.equal !== value`. -/
def equalValidator (value option : JSValue) : StringResult :=
  let opt := if jsTruthy option then option else equalOptionDefault
  if jsStrictEq (getProp opt "equal") value then .nullR
  else .strR (pickMsg (getProp opt "message") msgEqualDflt)

/-- The `optionDefault.messageOption` object of `imageValidator`. -/
def imageMessageOptionDefault : JSValue :=
  .obj .object
    [("minWidth", .str msgMinWidthDflt), ("maxWidth", .str msgMaxWidthDflt),
     ("minHeight", .str msgMinHeightDflt), ("maxHeight", .str msgMaxHeightDflt),
     ("size", .str msgSizeDflt), ("type", .str msgTypeDflt)]

/-- The `optionDefault` object of `imageValidator`. -/
def imageOptionDefault : JSValue :=
  .obj .object
    [("messageOption", imageMessageOptionDefault), ("message", .str ""),
     ("minWidth", .num (.int 0)), ("maxWidth", .num (.int 0)),
     ("minHeight", .num (.int 0)), ("maxHeight", .num (.int 0)),
     ("size", .num (.int 0)), ("type", .str "image")]

/-- JavaScript `<` with a number right operand, modelled for number left
operands (`NaN` comparisons are false; other coercions are not exercised
by any claim). -/
def jsLtNat (v : JSValue) (n : Nat) : Bool :=
  match v with
  | .num (.int i) => decide (i < (n : Int))
  | _ => false

/-- JavaScript `>` with a number right operand, modelled for number left
operands. -/
def jsGtNat (v : JSValue) (n : Nat) : Bool :=
  match v with
  | .num (.int i) => decide ((n : Int) < i)
  | _ => false

/-- `value.toLocaleLowerCase()` (locale-independent approximation). -/
def lowerStr (s : String) : String := String.mk (s.data.map Char.toLower)

/-- `typeof opt.type === 'string' ? opt.type.split(',') :
Array.from(opt.type)`, then mapped through `String(...)`.  `Array.from`
of a truthy non-iterable without a `length` property yields `[]`; an
array-like `length` own property is not modelled (unexercised). -/
def imageAllowedTypes : JSValue → List String
  | .str s => (splitOnChar ',' s.data).map String.mk
  | .arr xs => xs.map jsToStr
  | _ => []

/-- `imageValidator` of the source (the async collaborators are awaited
in sequence; the result and the emitted effects are returned).  The four
dimension comparisons and their message fallbacks are transcribed exactly
as written in the source. -/
def imageValidator (env : Env) (value option : JSValue) : StringResult × Effects :=
  let opt := if jsTruthy option then option else imageOptionDefault
  match value with
  | .blob bsize btype =>
    let msgOpt := getProp opt "messageOption"
    let dims :=
      if jsTruthy (getProp opt "minWidth") || jsTruthy (getProp opt "maxWidth") ||
         jsTruthy (getProp opt "minHeight") || jsTruthy (getProp opt "maxHeight") then
        let base64Url := env.blobToBase64 bsize btype
        let img := env.urlToImage base64Url
        let l1 :=
          if jsTruthy (getProp opt "minWidth") && jsLtNat (getProp opt "minWidth") img.naturalWidth
          then [pickMsg (getProp msgOpt "minWidth") msgMaxWidthDflt] else []
        let l2 :=
          if jsTruthy (getProp opt "maxWidth") && jsGtNat (getProp opt "maxWidth") img.naturalWidth
          then [pickMsg (getProp msgOpt "maxWidth") msgMinWidthDflt] else []
        let l3 :=
          if jsTruthy (getProp opt "minHeight") && jsLtNat (getProp opt "minHeight") img.naturalHeight
          then [pickMsg (getProp msgOpt "minHeight") msgMinHeightDflt] else []
        let l4 :=
          if jsTruthy (getProp opt "maxHeight") && jsGtNat (getProp opt "maxHeight") img.naturalHeight
          then [pickMsg (getProp msgOpt "maxHeight") msgMaxHeightDflt] else []
        (l1 ++ l2 ++ l3 ++ l4, Effects.app b64Eff imgEff)
      else ([], Effects.noEff)
    let sizes :=
      if jsTruthy (getProp opt "size") then
        match env.transformFileSize (getProp opt "size") with
        | .nan => ([], Effects.app sizeEff (warnEff warnSizeMsg))
        | .int s =>
          (if decide ((bsize : Int) > s) then [pickMsg (getProp msgOpt "size") msgSizeDflt] else [],
           sizeEff)
      else ([], Effects.noEff)
    let types :=
      if jsTruthy (getProp opt "type") then
        let allowed := (imageAllowedTypes (getProp opt "type")).map lowerStr
        if isTextIncludes env.regTest (allowed.map Pattern.plain) (lowerStr btype) then []
        else [pickMsg (getProp msgOpt "type") msgTypeDflt]
      else []
    let errors := dims.1 ++ sizes.1 ++ types
    (if errors.isEmpty then .nullR else .listR errors, Effects.app dims.2 sizes.2)
  | _ => (.nullR, warnEff warnNotBlobMsg)

/-- Lift a pure synchronous validator into a table entry. -/
def pureHandler (f : JSValue → JSValue → StringResult) : Handler :=
  fun _ value option => (.ok (f value option), Effects.noEff)

/-- The table entry of the asynchronous `imageValidator`. -/
def imageHandler : Handler :=
  fun env value option =>
    let r := imageValidator env value option
    (.ok r.1, r.2)

/-- The module-level `validatorHandler` object: the built-in table. -/
def builtinTable : Table :=
  [("isEmpty", pureHandler isEmptyValidator),
   ("email", pureHandler emailValidator),
   ("password", pureHandler passwordValidator),
   ("equal", pureHandler equalValidator),
   ("image", imageHandler)]

/-! The `Validator` engine.  Object identity is made explicit: the
module-level table object lives at index `0` of `World.tables`, and every
engine instance's `validatorHandler` field is initialized to a reference
to that same object (the source's field initializer `= validatorHandler`
copies the reference, not the table).  Each instance's `errors` field is
a fresh object in the `World.errObjs` heap. -/

/-- The mutable state shared by engine instances: the heap of validator
table objects (the module-level one at index 0) and the heap of errors
objects. -/
structure World where
  tables : List Table
  errObjs : List JSValue

/-- The heap index of the module-level `validatorHandler` object. -/
def moduleTableRef : Nat := 0

/-- A world with the module-level table in its initial state and no
engine instances yet. -/
def initialWorld : World := ⟨[builtinTable], []⟩

/-- An engine instance: the model reference, the rule set captured at
construction, and the references held by the `validatorHandler` and
`errors` fields. -/
structure VInstance where
  model : JSValue
  validateOption : JSValue
  tableRef : Nat
  errorsRef : Nat

/-- `new Validator(model, option)`: the `validatorHandler` field is the
module-level object's reference; the `errors` field is a fresh empty
object. -/
def mkValidator (w : World) (model option : JSValue) : VInstance × World :=
  (⟨model, option, moduleTableRef, w.errObjs.length⟩,
   { w with errObjs := w.errObjs ++ [JSValue.obj .object []] })

/-- The table object the instance's `validatorHandler` field refers to. -/
def instTable (w : World) (inst : VInstance) : Table :=
  w.tables.getD inst.tableRef []

/-- The errors object the instance's `errors` field refers to. -/
def instErrors (w : World) (inst : VInstance) : JSValue :=
  w.errObjs.getD inst.errorsRef (.obj .object [])

/-- JavaScript property assignment on the table object: overwrite in
place when present, else append. -/
def tblSet : Table → String → Handler → Table
  | [], n, h => [(n, h)]
  | (k, v) :: rest, n, h =>
    if k = n then (n, h) :: rest else (k, v) :: tblSet rest n h

/-- Lookup in the table object. -/
def tblLookup : Table → String → Option Handler
  | [], _ => none
  | (k, v) :: rest, n => if k = n then some v else tblLookup rest n

/-- `setValidatorHandler(name, handler)`:
`this.validatorHandler[name] = handler` mutates the referenced table
object in place. -/
def setValidatorHandler (w : World) (inst : VInstance) (name : String) (h : Handler) : World :=
  { w with tables := w.tables.set inst.tableRef (tblSet (instTable w inst) name h) }

/-- The messages a validator result contributes inside `validateField`:
`if (errorMessages)` (an empty string is falsy, an array is always
truthy) followed by the array/scalar push. -/
def pushMsgs : StringResult → List String
  | .nullR => []
  | .strR s => if s = "" then [] else [s]
  | .listR xs => xs

/-- The loop of `validateField` over a field's rule entries in
declaration order: resolve the handler (calling an absent one throws),
await it, and accumulate its messages. -/
def vfGo (env : Env) (table : Table) (value : JSValue) :
    List (String × JSValue) → Except RTErr (List String) × Effects
  | [] => (.ok [], Effects.noEff)
  | (ty, tyOpt) :: rest =>
    match tblLookup table ty with
    | none => (.error .typeError, Effects.noEff)
    | some h =>
      let r1 := h env value tyOpt
      match r1.1 with
      | .error err => (.error err, r1.2)
      | .ok msgs =>
        let r2 := vfGo env table value rest
        match r2.1 with
        | .error err => (.error err, Effects.app r1.2 r2.2)
        | .ok restMsgs => (.ok (pushMsgs msgs ++ restMsgs), Effects.app r1.2 r2.2)

/-- `validateField(value, options)` against a given table: the loop, then
`errors.filter((s) => s)` and the empty-to-null collapse; a falsy
`options` emits a diagnostic instead of iterating. -/
def validateFieldTbl (env : Env) (table : Table) (value options : JSValue) :
    Except RTErr (Option (List String)) × Effects :=
  if jsTruthy options then
    let r := vfGo env table value (enumProps options)
    match r.1 with
    | .error err => (.error err, r.2)
    | .ok msgs =>
      let result := msgs.filter (fun s => decide (s ≠ ""))
      (.ok (if result.isEmpty then none else some result), r.2)
  else
    (.ok none, warnEff warnFieldOptMsg)

/-- The instance method `validateField`. -/
def validateField (env : Env) (w : World) (inst : VInstance) (value options : JSValue) :
    Except RTErr (Option (List String)) × Effects :=
  validateFieldTbl env (instTable w inst) value options

/-- The loop of `validate` over the model's own enumerable keys: a key is
processed when it is an own property and its rule entry is truthy; the
per-field results are recorded in insertion order in a local `errors`
object (the returned mapping). -/
def validateGo (env : Env) (table : Table) (model : JSValue) (opt : JSValue) :
    List (String × JSValue) → Except RTErr (List (String × Option (List String))) × Effects
  | [] => (.ok [], Effects.noEff)
  | (key, _) :: rest =>
    let vf := getProp opt key
    if hasOwn model key && jsTruthy vf then
      let r1 := validateFieldTbl env table (getProp model key) vf
      match r1.1 with
      | .error err => (.error err, r1.2)
      | .ok fieldRes =>
        let r2 := validateGo env table model opt rest
        match r2.1 with
        | .error err => (.error err, Effects.app r1.2 r2.2)
        | .ok restRes => (.ok ((key, fieldRes) :: restRes), Effects.app r1.2 r2.2)
    else
      validateGo env table model opt rest

/-- `validate(options)`: the two emptiness diagnostics, the
`options || this.validateOption` fallback, and the field loop.  The
computed mapping is built in a local object and returned; the instance's
`errors` field is never written (the world is unchanged), exactly as in
the source. -/
def validate (env : Env) (w : World) (inst : VInstance) (options : JSValue) :
    Except RTErr (List (String × Option (List String))) × Effects :=
  let e1 := if isEmpty inst.model then warnEff warnModelEmptyMsg else Effects.noEff
  let opt := if jsTruthy options then options else inst.validateOption
  let e2 := if isEmpty opt then warnEff warnOptEmptyMsg else Effects.noEff
  if jsTruthy opt then
    let r := validateGo env (instTable w inst) inst.model opt (enumProps inst.model)
    (r.1, Effects.app (Effects.app e1 e2) r.2)
  else
    (.ok [], Effects.app e1 e2)

/-- `Object.values(x)` (objects only; the stored errors object). -/
def objValues : JSValue → List JSValue
  | .obj _ fields => fields.map Prod.snd
  | .arr xs => xs
  | _ => []

/-- `Array.prototype.flat()` with depth one. -/
def flatOne (l : List JSValue) : List JSValue :=
  l.flatMap (fun v => match v with | .arr xs => xs | x => [x])

/-- `errorsToArray()`:
`Object.values(this.errors).flat().filter(p => p).map(String)`. -/
def errorsToArray (w : World) (inst : VInstance) : List String :=
  (((flatOne (objValues (instErrors w inst))).filter jsTruthy).map jsToStr)

/-- `isValid(field)`: with a truthy field, whether the stored entry is a
non-empty array; otherwise whether the flattened error list is
non-empty. -/
def isValid (w : World) (inst : VInstance) (field : JSValue) : Bool :=
  if jsTruthy field then
    match getProp (instErrors w inst) (jsToStr field) with
    | .arr xs => !xs.isEmpty
    | _ => false
  else
    !(errorsToArray w inst).isEmpty

mutual

/-- Tree-level model of `JSON.parse(JSON.stringify(x))` (the structured
clone `getErrors` performs): `undefined` values vanish (`none`), `NaN`
becomes `null`, array holes become `null`, every surviving object is a
fresh plain object. -/
def jsonCloneVal : JSValue → Option JSValue
  | .undef => none
  | .jsNull => some .jsNull
  | .num .nan => some .jsNull
  | .num (.int i) => some (.num (.int i))
  | .bool b => some (.bool b)
  | .str s => some (.str s)
  | .arr xs => some (.arr (jsonCloneArr xs))
  | .obj _ fields => some (.obj .object (jsonCloneFields fields))
  | .blob _ _ => some (.obj .object [])

/-- Clone of an array's elements (unserializable elements become
`null`). -/
def jsonCloneArr : List JSValue → List JSValue
  | [] => []
  | v :: rest => ((jsonCloneVal v).getD .jsNull) :: jsonCloneArr rest

/-- Clone of an object's members (unserializable values are omitted). -/
def jsonCloneFields : List (String × JSValue) → List (String × JSValue)
  | [] => []
  | (k, v) :: rest =>
    match jsonCloneVal v with
    | none => jsonCloneFields rest
    | some w => (k, w) :: jsonCloneFields rest

end

/-- `getErrors()`: `JSON.parse(JSON.stringify(this.errors))` allocates a
fresh object in the heap and returns its reference. -/
def getErrors (w : World) (inst : VInstance) : Nat × World :=
  (w.errObjs.length,
   { w with errObjs := w.errObjs ++ [(jsonCloneVal (instErrors w inst)).getD .undef] })

/-- A caller-side mutation of a heap-allocated errors object. -/
def setErrObj (w : World) (r : Nat) (v : JSValue) : World :=
  { w with errObjs := w.errObjs.set r v }

/-- A value the engine can store for a field in the errors mapping: `null`
or a list of strings. -/
def isErrVal : JSValue → Bool
  | .jsNull => true
  | .arr xs => xs.all (fun v => match v with | .str _ => true | _ => false)
  | _ => false

/-- A well-formed stored errors object: a plain object whose values are
`null` or lists of strings (the shape `validate` produces). -/
def wfErrors : JSValue → Bool
  | .obj .object fields => fields.all (fun kv => isErrVal kv.2)
  | _ => false

/-! Shared concrete scenarios used by the claim theorems. -/

/-- An environment with trivial collaborators. -/
def envPure : Env := ⟨fun _ _ => "", fun _ => ⟨0, 0⟩, fun _ => .nan, fun _ _ => false⟩

/-- An environment whose image decoding yields a 50 × 50 image. -/
def envImg50 : Env := ⟨fun _ _ => "data-url", fun _ => ⟨50, 50⟩, fun _ => .nan, fun _ _ => false⟩

/-- An environment whose image decoding yields a 200 × 200 image. -/
def envImg200 : Env := ⟨fun _ _ => "data-url", fun _ => ⟨200, 200⟩, fun _ => .nan, fun _ _ => false⟩

/-- The model of the spec's engine round-trip scenario. -/
def modelC1 : JSValue := .obj .object [("email", .str "bad"), ("pass", .str "abc123")]

/-- The rules of the spec's engine round-trip scenario. -/
def rulesC1 : JSValue := .obj .object
  [("email", .obj .object [("email", .obj .object [])]),
   ("pass", .obj .object [("password", .obj .object [])])]

/-- The engine instance of the round-trip scenario. -/
def instC1 : VInstance := (mkValidator initialWorld modelC1 rulesC1).1

/-- The world after constructing the round-trip instance. -/
def worldC1 : World := (mkValidator initialWorld modelC1 rulesC1).2

/-- C1: evaluating the code on the claim's scenario (model
`email:"bad", pass:"abc123"`, rules `email:email, pass:password`).
`validate()` computes and returns the expected mapping
`email ↦ [email message], pass ↦ null` with no warnings, but the
per-field results are never stored on the engine instance: the stored
errors object is still empty afterwards, so `isValid("email")` and
`isValid("pass")` are both `false` and `errorsToArray()` is empty — the
persistence the claim asserts does not happen. -/
theorem c1_validate_results_not_persisted :
    validate envPure worldC1 instC1 .undef =
      (.ok [("email", some [msgEmailDflt]), ("pass", none)], Effects.noEff) ∧
    instErrors worldC1 instC1 = .obj .object [] ∧
    isValid worldC1 instC1 (.str "email") = false ∧
    isValid worldC1 instC1 (.str "pass") = false ∧
    errorsToArray worldC1 instC1 = [] :=
  ⟨rfl, rfl, rfl, rfl, rfl⟩

/-- C2: evaluating `imageValidator` at the claim's failing input.  With
option `minWidth = 100` and a blob decoding to a 50-wide image (width
below the bound), the claim requires the `minWidth` message, but the code
appends nothing; with the same option and a 200-wide image (bound
satisfied), the claim requires no message, but the code appends one —
and it is the `maxWidth` default message, because the source's fallback
messages for `minWidth`/`maxWidth` are swapped.  The comparisons are
inverted for all four bounds. -/
theorem c2_dimension_checks_inverted :
    imageValidator envImg50 (.blob 10 "image/png")
        (.obj .object [("minWidth", .num (.int 100))]) =
      (.nullR, ⟨[], 1, 1, 0⟩) ∧
    imageValidator envImg200 (.blob 10 "image/png")
        (.obj .object [("minWidth", .num (.int 100))]) =
      (.listR [msgMaxWidthDflt], ⟨[], 1, 1, 0⟩) :=
  ⟨rfl, rfl⟩

/-- C9: for every environment, option payload and non-Blob value, the
image validator returns `null`, emits exactly the one not-a-Blob warning,
performs no dimension/size/type work (zero collaborator calls), and does
not throw. -/
theorem c9_image_validator_non_blob (env : Env) (value option : JSValue)
    (h : ∀ size type, value ≠ JSValue.blob size type) :
    imageValidator env value option = (.nullR, warnEff warnNotBlobMsg) := by
  cases value with
  | blob size type => exact absurd rfl (h size type)
  | undef => rfl
  | jsNull => rfl
  | num n => rfl
  | bool b => rfl
  | str s => rfl
  | arr xs => rfl
  | obj ctor fields => rfl

/-- Witness for C9 at the concrete non-Blob value `"x"`. -/
theorem c9_image_validator_non_blob_witness :
    (∀ size type, JSValue.str "x" ≠ JSValue.blob size type) ∧
    imageValidator envImg50 (.str "x") .undef = (.nullR, warnEff warnNotBlobMsg) :=
  ⟨fun _ _ h => JSValue.noConfusion h,
   c9_image_validator_non_blob envImg50 (.str "x") .undef (fun _ _ h => JSValue.noConfusion h)⟩

/-- C10: for every value, `passwordValidator` with an explicit bound of 0
(`min: 0` or `max: 0`) behaves exactly as with no options at all: the
truthiness fallback `opt.min || 6` / `opt.max || 30` treats 0 as absent
and substitutes the default. -/
theorem c10_password_zero_bounds_are_defaults (v : JSValue) :
    passwordValidator v (.obj .object [("min", .num (.int 0))]) =
      passwordValidator v .undef ∧
    passwordValidator v (.obj .object [("max", .num (.int 0))]) =
      passwordValidator v .undef :=
  ⟨rfl, rfl⟩

/-- C7: for every regular-expression engine, pattern list and text,
`isTextExcludes` is the exact boolean complement of `isTextIncludes`. -/
theorem c7_excludes_complements_includes (test : String → String → Bool)
    (data : List Pattern) (text : String) :
    isTextExcludes test data text = !(isTextIncludes test data text) := by
  induction data with
  | nil => rfl
  | cons p rest ih =>
    cases p with
    | regex src =>
      by_cases h : test src text
      · simp [isTextIncludes, isTextExcludes, h]
      · simp [isTextIncludes, isTextExcludes, h, ih]
    | plain s =>
      by_cases h : test s text
      · simp [isTextIncludes, isTextExcludes, h]
      · simp [isTextIncludes, isTextExcludes, h, ih]

/-- A table none of whose handlers ever throws. -/
def TableOk (t : Table) : Prop :=
  ∀ p ∈ t, ∀ env value option, ((p.2 env value option).1).isOk = true

theorem builtinTable_ok : TableOk builtinTable := by
  intro p hp env value option
  simp only [builtinTable, List.mem_cons, List.not_mem_nil, or_false] at hp
  rcases hp with h | h | h | h | h <;> subst h <;> rfl

theorem tblLookup_some_mem (t : Table) (n : String) (h : Handler)
    (hl : tblLookup t n = some h) : ∃ k, (k, h) ∈ t := by
  induction t with
  | nil => cases hl
  | cons p rest ih =>
    obtain ⟨k, v⟩ := p
    by_cases hk : k = n
    · simp only [tblLookup, if_pos hk] at hl
      exact ⟨k, by simp [Option.some.inj hl]⟩
    · simp only [tblLookup, if_neg hk] at hl
      obtain ⟨k2, hm⟩ := ih hl
      exact ⟨k2, List.mem_cons_of_mem _ hm⟩

theorem vfGo_isOk (env : Env) (t : Table) (value : JSValue)
    (hok : TableOk t) (l : List (String × JSValue))
    (h : ∀ p ∈ l, (tblLookup t p.1).isSome = true) :
    ((vfGo env t value l).1).isOk = true := by
  induction l with
  | nil => rfl
  | cons p rest ih =>
    obtain ⟨ty, tyOpt⟩ := p
    have h1 : (tblLookup t ty).isSome = true := h _ (List.mem_cons_self _ _)
    obtain ⟨hd, hhd⟩ := Option.isSome_iff_exists.mp h1
    have hdok : ((hd env value tyOpt).1).isOk = true := by
      obtain ⟨k, hk⟩ := tblLookup_some_mem t ty hd hhd
      exact hok _ hk env value tyOpt
    have hrest := ih (fun q hq => h q (List.mem_cons_of_mem _ hq))
    simp only [vfGo, hhd]
    cases hr1 : (hd env value tyOpt).1 with
    | error e => rw [hr1] at hdok; cases hdok
    | ok msgs =>
      cases hr2 : (vfGo env t value rest).1 with
      | error e => rw [hr2] at hrest; cases hrest
      | ok restMsgs => rfl

/-- C3 counterexample: with the built-in table, `validateField` on a rule
set naming the absent validator name "foo" resolves the handler to
`undefined` and calls it, which throws — so `validateField` (and hence
`validate`) is not total as the claim states. -/
theorem c3_counterexample_absent_validator_throws :
    validateField envPure worldC1 instC1 (.str "x")
        (.obj .object [("foo", .obj .object [])]) =
      (.error .typeError, Effects.noEff) := rfl

/-- C3 (amended): `validateField` produces a defined result (no throw)
for every value and field rule set *provided* every validator name in the
rule set resolves in the instance's validator table and the resolved
handlers themselves do not throw (the built-in handlers never do); a rule
set naming an absent validator throws. -/
theorem c3_validateField_defined_when_names_resolve (env : Env) (w : World)
    (inst : VInstance) (value options : JSValue)
    (hok : TableOk (instTable w inst))
    (h : ∀ p ∈ enumProps options, (tblLookup (instTable w inst) p.1).isSome = true) :
    ((validateField env w inst value options).1).isOk = true := by
  unfold validateField validateFieldTbl
  by_cases ht : jsTruthy options = true
  · simp only [ht, if_true]
    have hgo := vfGo_isOk env (instTable w inst) value hok (enumProps options) h
    cases hv : (vfGo env (instTable w inst) value (enumProps options)).1 with
    | error e => rw [hv] at hgo; cases hgo
    | ok msgs => rfl
  · rw [if_neg ht]
    rfl

/-- Witness for C3's amended theorem: a rule set naming only the built-in
`email` validator yields a defined result. -/
theorem c3_validateField_defined_witness :
    TableOk (instTable worldC1 instC1) ∧
    (∀ p ∈ enumProps (JSValue.obj .object [("email", JSValue.obj .object [])]),
      (tblLookup (instTable worldC1 instC1) p.1).isSome = true) ∧
    ((validateField envPure worldC1 instC1 (.str "bad")
        (.obj .object [("email", .obj .object [])])).1).isOk = true := by
  have hok : TableOk (instTable worldC1 instC1) := builtinTable_ok
  have hnames : ∀ p ∈ enumProps (JSValue.obj .object [("email", JSValue.obj .object [])]),
      (tblLookup (instTable worldC1 instC1) p.1).isSome = true := by
    intro p hp
    have hp2 : p = ("email", JSValue.obj .object []) := List.mem_singleton.mp hp
    subst hp2
    rfl
  exact ⟨hok, hnames,
    c3_validateField_defined_when_names_resolve envPure worldC1 instC1 (.str "bad") _ hok hnames⟩

/-- A registered handler that accepts every value (used to observe a
registration from another instance). -/
def okNullHandler : Handler := fun _ _ _ => (.ok .nullR, Effects.noEff)

/-- First engine instance of the sharing scenario. -/
def instA : VInstance := (mkValidator initialWorld (.obj .object []) .undef).1

/-- The world after constructing the first instance. -/
def worldA : World := (mkValidator initialWorld (.obj .object []) .undef).2

/-- Second engine instance, constructed afterwards. -/
def instB : VInstance := (mkValidator worldA (.obj .object []) .undef).1

/-- The world holding both instances. -/
def worldAB : World := (mkValidator worldA (.obj .object []) .undef).2

/-- The world after registering "foo" through the *first* instance. -/
def worldReg : World := setValidatorHandler worldAB instA "foo" okNullHandler

/-- C4 counterexample: before the registration, instance B's
`validateField` on a rule naming "foo" throws; after registering "foo"
through instance A, the *same* call on instance B succeeds — the
registration through one instance changed the validator table observed
by the other, refuting the per-instance scoping the claim asserts. -/
theorem c4_counterexample_registration_visible_across_instances :
    validateField envPure worldAB instB (.str "x")
        (.obj .object [("foo", .obj .object [])]) =
      (.error .typeError, Effects.noEff) ∧
    validateField envPure worldReg instB (.str "x")
        (.obj .object [("foo", .obj .object [])]) =
      (.ok none, Effects.noEff) :=
  ⟨rfl, rfl⟩

theorem tblSet_lookup (t : Table) (n : String) (h : Handler) :
    tblLookup (tblSet t n h) n = some h := by
  induction t with
  | nil => simp [tblSet, tblLookup]
  | cons p rest ih =>
    obtain ⟨k, v⟩ := p
    by_cases hk : k = n
    · simp [tblSet, hk, tblLookup]
    · simp [tblSet, hk, tblLookup, ih]

/-- C4 (amended): the name-to-function registry is the single
module-level table object shared by reference among all engine instances
(the field initializer copies the reference); `setValidatorHandler`
through any instance mutates that shared object, so the registration is
observed by every instance's subsequent lookups. -/
theorem c4_registry_is_shared_module_state (w : World) (a b : VInstance)
    (name : String) (h : Handler)
    (ha : a.tableRef = moduleTableRef) (hb : b.tableRef = moduleTableRef)
    (hlen : moduleTableRef < w.tables.length) :
    tblLookup (instTable (setValidatorHandler w a name h) b) name = some h := by
  unfold instTable setValidatorHandler
  rw [hb, ha]
  have hset : (w.tables.set moduleTableRef
      (tblSet (w.tables.getD moduleTableRef []) name h)).getD moduleTableRef [] =
      tblSet (w.tables.getD moduleTableRef []) name h := by
    simp [List.getD_eq_getElem?_getD, List.getElem?_set_self, hlen]
  rw [show instTable w a = w.tables.getD moduleTableRef [] from by
        unfold instTable; rw [ha]]
  rw [hset]
  exact tblSet_lookup _ name h

/-- Witness for C4's amended theorem: registering "bar" through instance
A is observed by instance B. -/
theorem c4_registry_shared_witness :
    instA.tableRef = moduleTableRef ∧ instB.tableRef = moduleTableRef ∧
    moduleTableRef < worldAB.tables.length ∧
    tblLookup (instTable (setValidatorHandler worldAB instA "bar" okNullHandler) instB)
        "bar" = some okNullHandler :=
  ⟨rfl, rfl, by decide,
   c4_registry_is_shared_module_state worldAB instA instB "bar" okNullHandler rfl rfl
     (by decide)⟩

/-- C5: `isValid` has "has errors" polarity.  With a (nonempty) field
name, it is true iff the stored error entry for that field is a non-empty
list; called without a field name (`undefined`), it is true iff the
flattened stored error list (as produced by `errorsToArray`) is
non-empty. -/
theorem c5_isValid_has_errors_polarity (w : World) (inst : VInstance) :
    (∀ s : String, s ≠ "" →
      (isValid w inst (.str s) = true ↔
        ∃ xs, getProp (instErrors w inst) s = .arr xs ∧ xs ≠ [])) ∧
    (isValid w inst .undef = true ↔ errorsToArray w inst ≠ []) := by
  constructor
  · intro s hs
    have ht : jsTruthy (JSValue.str s) = true := by simp [jsTruthy, hs]
    unfold isValid
    rw [if_pos ht]
    show (match getProp (instErrors w inst) s with
          | .arr xs => !xs.isEmpty
          | _ => false) = true ↔ _
    cases hg : getProp (instErrors w inst) s with
    | arr xs =>
      cases xs with
      | nil =>
        constructor
        · intro h; cases h
        · rintro ⟨ys, hy, hne⟩
          exact (hne (JSValue.arr.inj hy).symm).elim
      | cons a as =>
        constructor
        · intro _; exact ⟨a :: as, rfl, by simp⟩
        · intro _; rfl
    | undef =>
      constructor
      · intro h; cases h
      · rintro ⟨ys, hy, hne⟩; cases hy
    | jsNull =>
      constructor
      · intro h; cases h
      · rintro ⟨ys, hy, hne⟩; cases hy
    | num n =>
      constructor
      · intro h; cases h
      · rintro ⟨ys, hy, hne⟩; cases hy
    | bool b =>
      constructor
      · intro h; cases h
      · rintro ⟨ys, hy, hne⟩; cases hy
    | str s2 =>
      constructor
      · intro h; cases h
      · rintro ⟨ys, hy, hne⟩; cases hy
    | obj ctor fields =>
      constructor
      · intro h; cases h
      · rintro ⟨ys, hy, hne⟩; cases hy
    | blob size type =>
      constructor
      · intro h; cases h
      · rintro ⟨ys, hy, hne⟩; cases hy
  · unfold isValid
    rw [if_neg (by exact fun h => Bool.noConfusion h)]
    cases herr : errorsToArray w inst with
    | nil => simp
    | cons a as => simp

/-- A stored errors object with one errored field and one clean field. -/
def errsW : JSValue := .obj .object [("email", .arr [.str "m1"]), ("pass", .jsNull)]

/-- An instance whose errors reference points at `errsW`. -/
def instW : VInstance := ⟨modelC1, .undef, 0, 0⟩

/-- A world holding `errsW` as the stored errors object. -/
def worldW : World := ⟨[builtinTable], [errsW]⟩

/-- Witness for C5 at a concrete stored-errors state. -/
theorem c5_isValid_polarity_witness :
    ("email" ≠ "") ∧
    (isValid worldW instW (.str "email") = true ↔
      ∃ xs, getProp (instErrors worldW instW) "email" = .arr xs ∧ xs ≠ []) ∧
    (isValid worldW instW .undef = true ↔ errorsToArray worldW instW ≠ []) :=
  ⟨by decide,
   (c5_isValid_has_errors_polarity worldW instW).1 "email" (by decide),
   (c5_isValid_has_errors_polarity worldW instW).2⟩

theorem getD_append_of_lt {α : Type} (l l2 : List α) (i : Nat) (d : α)
    (h : i < l.length) : (l ++ l2).getD i d = l.getD i d := by
  simp [List.getD_eq_getElem?_getD, List.getElem?_append, h]

theorem getD_concat_length {α : Type} (l : List α) (x d : α) :
    (l ++ [x]).getD l.length d = x := by
  simp [List.getD_eq_getElem?_getD, List.getElem?_concat_length]

theorem getD_set_of_ne {α : Type} (l : List α) (i j : Nat) (v d : α) (h : j ≠ i) :
    (l.set j v).getD i d = l.getD i d := by
  simp [List.getD_eq_getElem?_getD, List.getElem?_set_ne h]

theorem jsonCloneArr_strs (xs : List JSValue)
    (h : xs.all (fun v => match v with | .str _ => true | _ => false) = true) :
    jsonCloneArr xs = xs := by
  induction xs with
  | nil => rfl
  | cons a as ih =>
    simp only [List.all_cons, Bool.and_eq_true] at h
    cases a with
    | str s => simp [jsonCloneArr, jsonCloneVal, ih h.2]
    | undef => exact Bool.noConfusion h.1
    | jsNull => exact Bool.noConfusion h.1
    | num n => exact Bool.noConfusion h.1
    | bool b => exact Bool.noConfusion h.1
    | arr ys => exact Bool.noConfusion h.1
    | obj c f => exact Bool.noConfusion h.1
    | blob sz ty => exact Bool.noConfusion h.1

theorem isErrVal_clone (v : JSValue) (h : isErrVal v = true) :
    jsonCloneVal v = some v := by
  cases v with
  | jsNull => rfl
  | arr xs =>
    have hxs : xs.all (fun v => match v with | .str _ => true | _ => false) = true := h
    simp [jsonCloneVal, jsonCloneArr_strs xs hxs]
  | undef => exact Bool.noConfusion h
  | num n => exact Bool.noConfusion h
  | bool b => exact Bool.noConfusion h
  | str s => exact Bool.noConfusion h
  | obj c f => exact Bool.noConfusion h
  | blob sz ty => exact Bool.noConfusion h

theorem jsonCloneFields_wf (fields : List (String × JSValue))
    (h : fields.all (fun kv => isErrVal kv.2) = true) :
    jsonCloneFields fields = fields := by
  induction fields with
  | nil => rfl
  | cons kv rest ih =>
    simp only [List.all_cons, Bool.and_eq_true] at h
    obtain ⟨k2, v2⟩ := kv
    simp [jsonCloneFields, isErrVal_clone v2 h.1, ih h.2]

theorem wfErrors_clone (v : JSValue) (h : wfErrors v = true) :
    jsonCloneVal v = some v := by
  cases v with
  | obj ctor fields =>
    cases ctor with
    | object =>
      have hf : fields.all (fun kv => isErrVal kv.2) = true := h
      simp [jsonCloneVal, jsonCloneFields_wf fields hf]
    | other name => exact Bool.noConfusion h
  | undef => exact Bool.noConfusion h
  | jsNull => exact Bool.noConfusion h
  | num n => exact Bool.noConfusion h
  | bool b => exact Bool.noConfusion h
  | str s => exact Bool.noConfusion h
  | arr xs => exact Bool.noConfusion h
  | blob sz ty => exact Bool.noConfusion h

/-- C8: `getErrors` returns a freshly allocated mapping structurally
equal to the engine's stored errors object; mutating the returned object
leaves the stored object — and hence every subsequent `isValid` and
`errorsToArray` result — unchanged. -/
theorem c8_getErrors_structural_copy_independent (w : World) (inst : VInstance)
    (href : inst.errorsRef < w.errObjs.length)
    (hwf : wfErrors (instErrors w inst) = true) :
    ((getErrors w inst).2.errObjs.getD (getErrors w inst).1 .undef = instErrors w inst) ∧
    (∀ v, instErrors (setErrObj (getErrors w inst).2 (getErrors w inst).1 v) inst =
      instErrors w inst) ∧
    (∀ v f, isValid (setErrObj (getErrors w inst).2 (getErrors w inst).1 v) inst f =
      isValid w inst f) ∧
    (∀ v, errorsToArray (setErrObj (getErrors w inst).2 (getErrors w inst).1 v) inst =
      errorsToArray w inst) := by
  have hclone : (jsonCloneVal (instErrors w inst)).getD .undef = instErrors w inst := by
    rw [wfErrors_clone _ hwf]
    rfl
  have h1 : (getErrors w inst).2.errObjs.getD (getErrors w inst).1 .undef =
      instErrors w inst := by
    show (w.errObjs ++ [(jsonCloneVal (instErrors w inst)).getD .undef]).getD
      w.errObjs.length .undef = instErrors w inst
    rw [getD_concat_length]
    exact hclone
  have h2 : ∀ v, instErrors (setErrObj (getErrors w inst).2 (getErrors w inst).1 v) inst =
      instErrors w inst := by
    intro v
    show ((w.errObjs ++ [(jsonCloneVal (instErrors w inst)).getD .undef]).set
        w.errObjs.length v).getD inst.errorsRef (.obj .object []) = instErrors w inst
    rw [getD_set_of_ne _ _ _ _ _ (Nat.ne_of_gt href)]
    rw [getD_append_of_lt _ _ _ _ href]
    rfl
  refine ⟨h1, h2, ?_, ?_⟩
  · intro v f
    simp only [isValid, errorsToArray, h2 v]
  · intro v
    simp only [errorsToArray, h2 v]

/-- Witness for C8 at a concrete non-trivial stored-errors state,
mutating the returned object to `null`. -/
theorem c8_getErrors_witness :
    (instW.errorsRef < worldW.errObjs.length) ∧
    (wfErrors (instErrors worldW instW) = true) ∧
    ((getErrors worldW instW).2.errObjs.getD (getErrors worldW instW).1 .undef =
      instErrors worldW instW) ∧
    isValid (setErrObj (getErrors worldW instW).2 (getErrors worldW instW).1 .jsNull)
        instW (.str "email") = isValid worldW instW (.str "email") := by
  have h := c8_getErrors_structural_copy_independent worldW instW (by decide) rfl
  exact ⟨by decide, rfl, h.1, h.2.2.1 .jsNull (.str "email")⟩

theorem natDigsF_ne_nil (fuel n : Nat) : natDigsF (fuel + 1) n ≠ [] := by
  unfold natDigsF
  split
  · simp
  · simp

theorem natStr_ne_empty (n : Nat) : natStr n ≠ "" := by
  intro h
  have hd : natDigs n = [] := congrArg String.data h
  exact natDigsF_ne_nil n n hd

theorem append3_ne_empty (a b c : String) (ha : a ≠ "") : a ++ b ++ c ≠ "" := by
  intro h
  have hd := congrArg String.data h
  simp only [String.data_append] at hd
  rcases List.append_eq_nil.mp hd with ⟨h1, h2⟩
  rcases List.append_eq_nil.mp h1 with ⟨h3, h4⟩
  exact ha (String.ext h3)

theorem intStr_ne_empty (i : Int) : intStr i ≠ "" := by
  unfold intStr
  split
  · intro h
    have hd := congrArg String.data h
    simp only [String.data_append] at hd
    rcases List.append_eq_nil.mp hd with ⟨h1, _⟩
    exact absurd h1 (by decide)
  · exact natStr_ne_empty _

theorem jsonStringify_ne_empty (v : JSValue) (s : String)
    (h : jsonStringify v = some s) : s ≠ "" := by
  cases v with
  | undef => cases h
  | jsNull => cases Option.some.inj h; decide
  | num n =>
    cases n with
    | nan => cases Option.some.inj h; decide
    | int i => cases Option.some.inj h; exact intStr_ne_empty i
  | bool b => cases b <;> cases Option.some.inj h <;> decide
  | str s2 =>
    cases Option.some.inj h
    exact append3_ne_empty "\"" s2 "\"" (by decide)
  | arr xs =>
    cases Option.some.inj h
    exact append3_ne_empty "[" _ "]" (by decide)
  | obj ctor fields =>
    cases Option.some.inj h
    exact append3_ne_empty "\x7b" _ "\x7d" (by decide)
  | blob sz ty => cases Option.some.inj h; decide

theorem wrap_eq_iff (l r j : String) : (l ++ j ++ r = l ++ r) ↔ j = "" := by
  constructor
  · intro h
    have hd := congrArg String.data h
    simp only [String.data_append] at hd
    rw [List.append_assoc] at hd
    have h2 := List.append_cancel_left hd
    have h4 : j.data.length + r.data.length = r.data.length := by
      simpa using congrArg List.length h2
    have h3 : j.data.length = 0 := by omega
    exact String.ext (List.eq_nil_of_length_eq_zero h3)
  · intro h
    subst h
    apply String.ext
    have he : ("" : String).data = [] := rfl
    simp [String.data_append, he]

theorem joinComma_eq_empty_iff (l : List String) (h : ∀ s ∈ l, s ≠ "") :
    (joinComma l = "") ↔ l = [] := by
  cases l with
  | nil => simp [joinComma]
  | cons a rest =>
    cases rest with
    | nil =>
      simp only [joinComma]
      constructor
      · intro ha; exact absurd ha (h a (by simp))
      · intro hc; cases hc
    | cons b rest2 =>
      simp only [joinComma]
      constructor
      · intro hx
        exact absurd hx (append3_ne_empty a "," _ (h a (by simp)))
      · intro hc; cases hc

theorem jsonArrElems_mem_ne_empty (l : List JSValue) :
    ∀ s ∈ jsonArrElems l, s ≠ "" := by
  induction l with
  | nil => intro s hs; cases hs
  | cons v rest ih =>
    intro s hs
    rw [jsonArrElems] at hs
    rcases List.mem_cons.mp hs with h1 | h2
    · subst h1
      cases hj : jsonStringify v with
      | none => decide
      | some s2 => exact jsonStringify_ne_empty v s2 hj
    · exact ih s h2

theorem jsonArrElems_nil_iff (l : List JSValue) : jsonArrElems l = [] ↔ l = [] := by
  cases l with
  | nil => simp [jsonArrElems]
  | cons v rest => simp [jsonArrElems]

theorem arrSerial_eq_iff (xs : List JSValue) :
    ("[" ++ joinComma (jsonArrElems xs) ++ "]" = "[]") ↔ xs = [] := by
  have hb : ("[]" : String) = "[" ++ "]" := rfl
  rw [hb, wrap_eq_iff, joinComma_eq_empty_iff _ (jsonArrElems_mem_ne_empty xs),
    jsonArrElems_nil_iff]

theorem jsonObjElems_mem_ne_empty (fields : List (String × JSValue)) :
    ∀ s ∈ jsonObjElems fields, s ≠ "" := by
  induction fields with
  | nil => intro s hs; cases hs
  | cons kv rest ih =>
    intro s hs
    obtain ⟨k, v⟩ := kv
    cases hj : jsonStringify v with
    | none =>
      simp only [jsonObjElems, hj] at hs
      exact ih s hs
    | some s2 =>
      simp only [jsonObjElems, hj] at hs
      rcases List.mem_cons.mp hs with h1 | h2
      · subst h1
        exact append3_ne_empty _ ":" s2 (append3_ne_empty "\"" k "\"" (by decide))
      · exact ih s h2

theorem jsonObjElems_nil_iff (fields : List (String × JSValue)) :
    jsonObjElems fields = [] ↔ ∀ kv ∈ fields, jsonStringify kv.2 = none := by
  induction fields with
  | nil => simp [jsonObjElems]
  | cons kv rest ih =>
    obtain ⟨k, v⟩ := kv
    cases hj : jsonStringify v with
    | none =>
      simp only [jsonObjElems, hj]
      rw [ih]
      constructor
      · intro hall kv2 hm
        rcases List.mem_cons.mp hm with h1 | h2
        · subst h1; exact hj
        · exact hall kv2 h2
      · intro hall kv2 hm
        exact hall kv2 (List.mem_cons_of_mem _ hm)
    | some s2 =>
      simp only [jsonObjElems, hj]
      constructor
      · intro hc; cases hc
      · intro hall
        have hv := hall (k, v) (List.mem_cons_self _ _)
        rw [hj] at hv
        cases hv

theorem objSerial_eq_iff (fields : List (String × JSValue)) :
    ("\x7b" ++ joinComma (jsonObjElems fields) ++ "\x7d" = "\x7b\x7d") ↔
      ∀ kv ∈ fields, jsonStringify kv.2 = none := by
  have hb : ("\x7b\x7d" : String) = "\x7b" ++ "\x7d" := rfl
  rw [hb, wrap_eq_iff, joinComma_eq_empty_iff _ (jsonObjElems_mem_ne_empty fields),
    jsonObjElems_nil_iff]

theorem decide_eq_isEmpty {α : Type} {P : Prop} [Decidable P] (l : List α)
    (h : P ↔ l = []) : decide P = l.isEmpty := by
  cases l with
  | nil => simp [h]
  | cons a rest => simp [h]

/-- The characterization claim C6 states, formalized from the spec's
words: the object clause demands a plain object with *no own enumerable
keys*. -/
def claimC6Pred : JSValue → Bool
  | .undef => true
  | .jsNull => true
  | .num .nan => true
  | .str s => s.data.all isJsSpace
  | .arr xs => (xs.filter jsTruthy).isEmpty
  | .obj .object fields => fields.isEmpty
  | .blob size type => decide (size = 0) || decide (type = "")
  | _ => false

/-- C6 counterexample: the plain object with the single own enumerable
key "a" bound to `undefined` satisfies `isEmpty` (its JSON serialization
is the empty object literal, since `JSON.stringify` omits
undefined-valued keys) although it *has* an own enumerable key — the
claimed characterization is false. -/
theorem c6_counterexample_key_bound_to_undefined :
    isEmpty (.obj .object [("a", .undef)]) = true ∧
    claimC6Pred (.obj .object [("a", .undef)]) = false :=
  ⟨rfl, rfl⟩

/-- The amended characterization: the object clause asks that every own
enumerable key's value is omitted by JSON serialization (equivalently,
the object serializes to the empty object literal), rather than that
there are no keys at all. -/
def amendedC6Pred : JSValue → Bool
  | .undef => true
  | .jsNull => true
  | .num .nan => true
  | .str s => s.data.all isJsSpace
  | .arr xs => (xs.filter jsTruthy).isEmpty
  | .obj .object fields => fields.all (fun kv => (jsonStringify kv.2).isNone)
  | .blob size type => decide (size = 0) || decide (type = "")
  | _ => false

/-- C6 (amended): for every value, `isEmpty v` is true iff v is undefined
or null, a NaN number, an all-whitespace string (including empty), an
array whose falsy-filtered form is empty (equivalently, serializes to the
empty array literal), a plain object all of whose own enumerable values
are omitted by JSON serialization, or a blob with zero size or empty
declared type. -/
theorem c6_isEmpty_characterization (v : JSValue) :
    isEmpty v = amendedC6Pred v := by
  cases v with
  | undef => rfl
  | jsNull => rfl
  | num n => cases n <;> rfl
  | bool b => rfl
  | str s =>
    simp only [isEmpty, isNumberEmpty, isStringEmpty, isArrayEmpty, isObjectEmpty,
      isBlobEmpty, amendedC6Pred, Bool.false_or, Bool.or_false]
  | arr xs =>
    simp only [isEmpty, isNumberEmpty, isStringEmpty, isArrayEmpty, isObjectEmpty,
      isBlobEmpty, amendedC6Pred, Bool.false_or, Bool.or_false]
    exact decide_eq_isEmpty (xs.filter jsTruthy) (arrSerial_eq_iff (xs.filter jsTruthy))
  | obj ctor fields =>
    cases ctor with
    | object =>
      simp only [isEmpty, isNumberEmpty, isStringEmpty, isArrayEmpty, isObjectEmpty,
        isBlobEmpty, amendedC6Pred, Bool.false_or, Bool.or_false]
      by_cases hp : ∀ kv ∈ fields, jsonStringify kv.2 = none
      · rw [decide_eq_true ((objSerial_eq_iff fields).mpr hp)]
        symm
        rw [List.all_eq_true]
        intro kv hm
        rw [hp kv hm]
        rfl
      · rw [decide_eq_false (fun hs => hp ((objSerial_eq_iff fields).mp hs))]
        have hall : fields.all (fun kv => (jsonStringify kv.2).isNone) = false := by
          cases hfa : fields.all (fun kv => (jsonStringify kv.2).isNone) with
          | false => rfl
          | true =>
            exact absurd (fun kv hm => Option.isNone_iff_eq_none.mp
              (List.all_eq_true.mp hfa kv hm)) hp
        rw [hall]
    | other name => rfl
  | blob size type => rfl
